import Mathlib

/-!
Verification of the serialized write dispatcher and per-item error
demultiplexer of the p4r-perf client (src/p4rt/write.go).

The Go source is shallowly embedded: gRPC status values, p4.Error records
and the three-tier decode policy of parseP4RuntimeWriteError become plain
Lean data and functions; the dispatcher loop (ListenForWrites) and the
fire-and-forget decoding goroutines become a small labelled transition
system whose reachable states are analysed for the ordering and
exactly-once delivery invariants.
-/

-- Canonical gRPC status codes used by write.go (google.golang.org/grpc/codes),
-- as int32 values.
namespace codes

def OK : Int := 0

def Unknown : Int := 2

def Internal : Int := 13

def Unavailable : Int := 14

end codes

/-- Embedding of the p4.Error proto fields that write.go reads or writes:
CanonicalCode, Message and Space.  Space is the origin tag; the code sets it
to "p4rt-go" exactly on locally synthesized results. -/
structure P4Error where
  canonicalCode : Int
  message : String
  space : String
  deriving DecidableEq, Repr

/-- One entry of grpcError.GetDetails(): an Any payload that either
unmarshals to a p4.Error or fails with an unmarshalling error message. -/
inductive Detail where
  | p4ErrorAny (e : P4Error)
  | malformed (errMsg : String)
  deriving DecidableEq, Repr

/-- Embedding of ptypes.UnmarshalAny specialized to p4.Error targets:
either the decoded p4.Error or the unmarshalling failure's message. -/
def unmarshalAny : Detail → Except String P4Error
  | Detail.p4ErrorAny e => Except.ok e
  | Detail.malformed m => Except.error m

/-- Embedding of status.Convert(err).Proto(): the aggregate code, the
aggregate message and the ordered detail records of a non-nil transport
error. -/
structure GrpcStatus where
  code : Int
  message : String
  details : List Detail
  deriving DecidableEq, Repr

/-- Decoding of a single detail record, as done in the loop body of
parseP4RuntimeWriteError: the unmarshalled p4.Error on success, otherwise
the synthetic p4.Error with CanonicalCode codes.Internal, the unmarshalling
error's message, and Space "p4rt-go". -/
def decodeDetail (d : Detail) : P4Error :=
  match unmarshalAny d with
  | Except.ok e => e
  | Except.error m =>
      { canonicalCode := codes.Internal, message := m, space := "p4rt-go" }

/-- Embedding of parseP4RuntimeWriteError (write.go lines 75-112).  The
transport error is Option GrpcStatus (none models a nil error).  In the
fallback branch the Go code leaves the local variable code at its
zero-initialized value 0 (it assigns int32(codes.OK) only in the success
branch and never copies grpcError.GetCode()), so the stand-in p4.Error is
built with canonical code 0 there; the embedding reproduces that. -/
def parseP4RuntimeWriteError (err : Option GrpcStatus) (batchSize : Nat) :
    List P4Error :=
  match err with
  | some grpcError =>
      if grpcError.code = codes.Unknown ∧ 0 < batchSize ∧
          grpcError.details.length = batchSize then
        grpcError.details.map decodeDetail
      else
        List.replicate batchSize
          { canonicalCode := 0, message := grpcError.message, space := "" }
  | none =>
      List.replicate batchSize
        { canonicalCode := codes.OK, message := "", space := "" }

/-- Helper: the structured branch fires exactly when the aggregate code is
Unknown and the detail count equals the (positive) batch size. -/
theorem parse_structured (g : GrpcStatus) (batchSize : Nat)
    (hU : g.code = codes.Unknown) (hL : g.details.length = batchSize) :
    parseP4RuntimeWriteError (some g) batchSize = g.details.map decodeDetail := by
  simp only [parseP4RuntimeWriteError]
  rcases Nat.eq_zero_or_pos batchSize with h0 | hpos
  · subst h0
    rw [if_neg]
    · have hnil : g.details = [] := List.eq_nil_of_length_eq_zero hL
      simp [hnil]
    · intro hc
      exact Nat.lt_irrefl 0 hc.2.1
  · rw [if_pos ⟨hU, hpos, hL⟩]

/-- Helper: the fallback branch broadcasts one stand-in p4.Error with
canonical code 0 and the aggregate message. -/
theorem parse_fallback (g : GrpcStatus) (batchSize : Nat)
    (h : ¬ (g.code = codes.Unknown ∧ 0 < batchSize ∧
        g.details.length = batchSize)) :
    parseP4RuntimeWriteError (some g) batchSize =
      List.replicate batchSize
        { canonicalCode := 0, message := g.message, space := "" } := by
  simp only [parseP4RuntimeWriteError]
  rw [if_neg h]

/-- Helper: decode always returns exactly batchSize item results. -/
theorem parse_length (err : Option GrpcStatus) (batchSize : Nat) :
    (parseP4RuntimeWriteError err batchSize).length = batchSize := by
  match err with
  | none => simp [parseP4RuntimeWriteError]
  | some g =>
      simp only [parseP4RuntimeWriteError]
      by_cases h : g.code = codes.Unknown ∧ 0 < batchSize ∧
          g.details.length = batchSize
      · rw [if_pos h, List.length_map]
        exact h.2.2
      · rw [if_neg h, List.length_replicate]

/-- C1: for every batch size N ≥ 0 and every transport outcome (nil error
or any error value), parseP4RuntimeWriteError returns a sequence of exactly
N item results. -/
theorem decode_returns_batchSize_results (err : Option GrpcStatus)
    (batchSize : Nat) :
    (parseP4RuntimeWriteError err batchSize).length = batchSize :=
  parse_length err batchSize

/-- C4: if the transport call succeeds (nil error), parseP4RuntimeWriteError
returns batchSize item results that all carry canonical code codes.OK and an
empty message. -/
theorem success_all_ok (batchSize : Nat) :
    parseP4RuntimeWriteError none batchSize =
      List.replicate batchSize
        { canonicalCode := codes.OK, message := "", space := "" } := rfl

/-- C2 (counterexample): for batch size 5 and a failure classified
Unavailable with no details, every result carries canonical code 0, not the
aggregate code codes.Unavailable the claim asserts: the Go code never copies
grpcError.GetCode() into the stand-in p4.Error. -/
theorem fallback_uniform_claim_cex :
    (parseP4RuntimeWriteError
        (some { code := codes.Unavailable, message := "service down",
                details := [] }) 5).map P4Error.canonicalCode =
      List.replicate 5 0 ∧ (0 : Int) ≠ codes.Unavailable := by
  exact ⟨by decide, by decide⟩

/-- C2 (amended): for every failing transport outcome that does not match
the structured per-item shape (classification other than Unknown, or a
detail count different from the batch size, or zero details), decode returns
batchSize identical item results, each carrying the aggregate message but
canonical code 0 (the int32 zero value, which numerically coincides with
codes.OK), not the failure's aggregate status code. -/
theorem fallback_uniform_broadcast (g : GrpcStatus) (batchSize : Nat)
    (h : g.code ≠ codes.Unknown ∨ g.details.length ≠ batchSize ∨
        g.details = []) :
    parseP4RuntimeWriteError (some g) batchSize =
      List.replicate batchSize
        { canonicalCode := 0, message := g.message, space := "" } := by
  apply parse_fallback
  intro hc
  rcases h with h1 | h2 | h3
  · exact h1 hc.1
  · exact h2 hc.2.2
  · have hpos := hc.2.1
    have h0 : (0 : Nat) = batchSize := by simpa [h3] using hc.2.2
    omega

/-- C2 (witness): the amended fallback behaviour at batch size 5 with an
Unavailable failure carrying no details. -/
theorem fallback_uniform_broadcast_witness :
    ((codes.Unavailable : Int) ≠ codes.Unknown ∨
        ([] : List Detail).length ≠ 5 ∨ ([] : List Detail) = []) ∧
    parseP4RuntimeWriteError
        (some { code := codes.Unavailable, message := "service down",
                details := [] }) 5 =
      List.replicate 5
        { canonicalCode := 0, message := "service down", space := "" } :=
  ⟨Or.inr (Or.inr rfl),
   fallback_uniform_broadcast
     { code := codes.Unavailable, message := "service down", details := [] }
     5 (Or.inr (Or.inr rfl))⟩

/-- C3: when the failure is classified Unknown and carries exactly
batchSize detail records, each position i is decoded independently from
detail record i: a record that unmarshals yields the remote p4.Error at
position i; a record whose unmarshalling fails yields, at that position
only, a synthetic locally-tagged (Space "p4rt-go") result with canonical
code codes.Internal and the unmarshalling failure's message; and the result
at a position depends only on that position's detail record. -/
theorem structured_per_item_decode (g : GrpcStatus) (batchSize : Nat)
    (hU : g.code = codes.Unknown) (hL : g.details.length = batchSize) :
    parseP4RuntimeWriteError (some g) batchSize =
      g.details.map decodeDetail ∧
    (∀ (i : Nat) d e, g.details[i]? = some d →
        unmarshalAny d = Except.ok e →
        (parseP4RuntimeWriteError (some g) batchSize)[i]? = some e) ∧
    (∀ (i : Nat) d m, g.details[i]? = some d →
        unmarshalAny d = Except.error m →
        (parseP4RuntimeWriteError (some g) batchSize)[i]? =
          some { canonicalCode := codes.Internal, message := m,
                 space := "p4rt-go" }) ∧
    (∀ g2 : GrpcStatus, g2.code = codes.Unknown →
        g2.details.length = batchSize →
        ∀ (i : Nat) d, g.details[i]? = some d → g2.details[i]? = some d →
          (parseP4RuntimeWriteError (some g) batchSize)[i]? =
            (parseP4RuntimeWriteError (some g2) batchSize)[i]?) := by
  have hmain := parse_structured g batchSize hU hL
  refine ⟨hmain, ?_, ?_, ?_⟩
  · intro i d e hd he
    rw [hmain, List.getElem?_map, hd]
    simp [decodeDetail, he]
  · intro i d m hd hm
    rw [hmain, List.getElem?_map, hd]
    simp [decodeDetail, hm]
  · intro g2 hU2 hL2 i d hd hd2
    rw [hmain, parse_structured g2 batchSize hU2 hL2,
      List.getElem?_map, List.getElem?_map, hd, hd2]

/-- Concrete structured failure used as a witness: three detail records,
the middle one malformed. -/
def gStructured : GrpcStatus :=
  { code := codes.Unknown, message := "batch failed",
    details :=
      [Detail.p4ErrorAny
         { canonicalCode := 6, message := "exists", space := "target" },
       Detail.malformed "bad payload",
       Detail.p4ErrorAny
         { canonicalCode := 3, message := "invalid", space := "target" }] }

/-- C3 (witness): at batch size 3 with one malformed middle record, position
1 gets the synthetic Internal result and position 0 keeps the remote
p4.Error decoded from its own record. -/
theorem structured_per_item_decode_witness :
    (gStructured.code = codes.Unknown ∧ gStructured.details.length = 3) ∧
    (parseP4RuntimeWriteError (some gStructured) 3)[1]? =
      some { canonicalCode := codes.Internal, message := "bad payload",
             space := "p4rt-go" } ∧
    (parseP4RuntimeWriteError (some gStructured) 3)[0]? =
      some { canonicalCode := 6, message := "exists", space := "target" } :=
  ⟨⟨rfl, rfl⟩,
   (structured_per_item_decode gStructured 3 rfl rfl).2.2.1 1
     (Detail.malformed "bad payload") "bad payload" rfl rfl,
   (structured_per_item_decode gStructured 3 rfl rfl).2.1 0
     (Detail.p4ErrorAny
       { canonicalCode := 6, message := "exists", space := "target" })
     { canonicalCode := 6, message := "exists", space := "target" } rfl rfl⟩

/-- Update: one p4.Update mutation operation of a WriteRequest.  The
dispatcher never inspects its contents, so it is an abstract payload. -/
structure Update where
  payload : Nat
  deriving DecidableEq, Repr

/-- Embedding of the p4.WriteRequest fields relevant to the write path:
the device id and the list of mutation operations. -/
structure WriteRequest where
  deviceId : Nat
  updates : List Update
  deriving DecidableEq, Repr

/-- Embedding of the p4Write struct: a batch request paired with its
one-shot response channel; the channel is identified by a numeric id. -/
structure p4Write where
  id : Nat
  req : WriteRequest
  deriving DecidableEq, Repr

/-- Embedding of the WriteTrace struct (field names as in the Go source). -/
structure WriteTrace where
  BatchSize : Nat
  Duration : Nat
  Errors : List P4Error
  deriving DecidableEq, Repr

/-- The registered write trace channel: a buffered Go channel modelled by
its capacity and current buffer contents. -/
structure TraceChan where
  capacity : Nat
  buffer : List WriteTrace
  deriving DecidableEq, Repr

/-- Outcome of the telemetry tail of processWriteResponse: the nil check
skipped telemetry, the trace was delivered into the channel, or the select
default branch dropped it and printed the diagnostic notice. -/
inductive TraceAction where
  | skipped
  | delivered (trace : WriteTrace) (chanAfter : TraceChan)
  | droppedWithNotice (trace : WriteTrace) (chanAfter : TraceChan)
  deriving DecidableEq, Repr

/-- The WriteTrace value constructed by processWriteResponse. -/
def writeTraceOf (err : Option GrpcStatus) (batchSize duration : Nat) :
    WriteTrace :=
  { BatchSize := batchSize, Duration := duration,
    Errors := parseP4RuntimeWriteError err batchSize }

/-- Embedding of processWriteResponse (write.go lines 55-73): decode the
transport outcome, send the item results into the write's response channel
(first component: channel id and payload), then, if a trace channel is
registered, offer the trace with a non-blocking send (select with default)
that drops the trace when the buffer is full. -/
def processWriteResponse (write : p4Write) (err : Option GrpcStatus)
    (batchSize duration : Nat) (traceChan : Option TraceChan) :
    (Nat × List P4Error) × TraceAction :=
  let errors := parseP4RuntimeWriteError err batchSize
  let sent := (write.id, errors)
  match traceChan with
  | none => (sent, TraceAction.skipped)
  | some t =>
      let trace := writeTraceOf err batchSize duration
      if t.buffer.length < t.capacity then
        (sent, TraceAction.delivered trace
          { capacity := t.capacity, buffer := t.buffer ++ [trace] })
      else
        (sent, TraceAction.droppedWithNotice trace t)

/-- Helper: the response-channel send of processWriteResponse is always the
decoded item results, whatever the telemetry state. -/
theorem processWriteResponse_fst (write : p4Write) (err : Option GrpcStatus)
    (batchSize duration : Nat) (tc : Option TraceChan) :
    (processWriteResponse write err batchSize duration tc).1 =
      (write.id, parseP4RuntimeWriteError err batchSize) := by
  rcases tc with _ | t
  · rfl
  · by_cases hq : t.buffer.length < t.capacity <;>
      simp [processWriteResponse, hq]

/-- Helper: any trace that processWriteResponse delivers or drops is the
one it constructed from this batch. -/
theorem processWriteResponse_trace (write : p4Write) (err : Option GrpcStatus)
    (batchSize duration : Nat) (tc : Option TraceChan) (tr : WriteTrace)
    (after : TraceChan)
    (h : (processWriteResponse write err batchSize duration tc).2 =
          TraceAction.delivered tr after ∨
        (processWriteResponse write err batchSize duration tc).2 =
          TraceAction.droppedWithNotice tr after) :
    tr = writeTraceOf err batchSize duration := by
  rcases tc with _ | t
  · rcases h with h | h <;> simp [processWriteResponse] at h
  · by_cases hq : t.buffer.length < t.capacity
    · rcases h with h | h <;> simp [processWriteResponse, hq] at h
      exact h.1.symm
    · rcases h with h | h <;> simp [processWriteResponse, hq] at h
      exact h.1.symm

/-- Default WriteRequest value, standing for the zero proto message. -/
def emptyWriteRequest : WriteRequest := { deviceId := 0, updates := [] }

/-- Mutable-object model for the defensive-copy question: a heap of
WriteRequest objects addressed by index, plus the queue of addresses of the
requests enqueued on c.writes. -/
structure WState where
  heap : List WriteRequest
  queue : List Nat
  deriving DecidableEq, Repr

/-- Dereference an address in the heap. -/
def heapRead (s : WState) (addr : Nat) : WriteRequest :=
  s.heap.getD addr emptyWriteRequest

/-- Embedding of the Write method (write.go lines 30-37): proto.Clone
allocates a fresh object (address s.heap.length) holding a copy of the
caller's request taken at intake, and the address of that clone — never the
caller's address — is what goes into the queue. -/
def clientWrite (s : WState) (addr : Nat) : WState :=
  { heap := s.heap ++ [heapRead s addr],
    queue := s.queue ++ [s.heap.length] }

/-- A caller mutating its own request object after submission: overwrite
the heap cell at the caller's address. -/
def mutateRequest (s : WState) (addr : Nat) (v : WriteRequest) : WState :=
  { heap := s.heap.set addr v, queue := s.queue }

/-- C9: Write stores a defensive deep copy taken at intake.  The enqueued
address is the fresh clone's; the clone holds the caller's value as of
submission time; and mutating any pre-existing object afterwards (in
particular the caller's original request) leaves the queued request's value
unchanged. -/
theorem write_defensive_copy (s : WState) (addr : Nat)
    (ha : addr < s.heap.length) (b : Nat) (hb : b < s.heap.length)
    (v : WriteRequest) :
    (clientWrite s addr).queue = s.queue ++ [s.heap.length] ∧
    heapRead (clientWrite s addr) s.heap.length = heapRead s addr ∧
    heapRead (mutateRequest (clientWrite s addr) b v) s.heap.length =
      heapRead s addr := by
  refine ⟨rfl, ?_, ?_⟩
  · simp [heapRead, clientWrite, List.getElem?_concat_length]
  · have hne : b ≠ s.heap.length := Nat.ne_of_lt hb
    simp only [heapRead, mutateRequest, clientWrite]
    rw [List.getD_eq_getElem?_getD, List.getElem?_set_ne hne,
      List.getElem?_concat_length]
    simp [List.getElem?_concat_length]

/-- C9 (witness): a two-object heap; submitting address 0 then overwriting
it leaves the queued clone holding the original value. -/
theorem write_defensive_copy_witness :
    ((0 : Nat) < 2 ∧ (0 : Nat) < 2) ∧
    (clientWrite
        { heap := [{ deviceId := 1, updates := [{ payload := 5 }] },
                   emptyWriteRequest],
          queue := [] } 0).queue = [2] ∧
    heapRead
        (mutateRequest
          (clientWrite
            { heap := [{ deviceId := 1, updates := [{ payload := 5 }] },
                       emptyWriteRequest],
              queue := [] } 0)
          0 { deviceId := 9, updates := [] }) 2 =
      { deviceId := 1, updates := [{ payload := 5 }] } := by
  have h := write_defensive_copy
    { heap := [{ deviceId := 1, updates := [{ payload := 5 }] },
               emptyWriteRequest],
      queue := [] } 0 (by decide) 0 (by decide) { deviceId := 9, updates := [] }
  exact ⟨⟨by decide, by decide⟩, h.1, h.2.2⟩

/-- Embedding of the one-shot response channel made by Write:
make(chan []*p4.Error, c.batchSize) is a buffered channel of capacity
c.batchSize, initially empty. -/
structure RespChan where
  capacity : Nat
  buffer : List (List P4Error)
  deriving DecidableEq, Repr

/-- The response channel created per submission by Write. -/
def newRespChan (batchSize : Nat) : RespChan :=
  { capacity := batchSize, buffer := [] }

/-- A Go channel send blocks (until a reader arrives) exactly when the
buffer already holds capacity-many elements. -/
def sendWouldBlock (c : RespChan) : Bool :=
  decide (c.capacity ≤ c.buffer.length)

/-- C10 (counterexample): with a configured batch size of 0 the response
channel is made unbuffered, so the demultiplexer's single send into the
fresh sink does block until the submitter reads — the claim's universal
non-blocking guarantee fails at c.batchSize = 0. -/
theorem response_sink_buffered_claim_cex :
    sendWouldBlock (newRespChan 0) = true ∧ (newRespChan 0).capacity = 0 := by
  exact ⟨by decide, rfl⟩

/-- C10 (amended): provided the configured batch size is at least 1, the
response channel returned by Write (capacity c.batchSize, initially empty)
can hold one complete item-result sequence, so the demultiplexer's single
send completes without waiting for the submitter to read. -/
theorem response_sink_buffered (batchSize : Nat) (h : 1 ≤ batchSize) :
    (newRespChan batchSize).capacity = batchSize ∧
    sendWouldBlock (newRespChan batchSize) = false := by
  refine ⟨rfl, ?_⟩
  simp [sendWouldBlock, newRespChan]
  omega

/-- C10 (witness): at the smallest positive batch size the single send into
the fresh sink does not block. -/
theorem response_sink_buffered_witness :
    (1 ≤ 1 ∧ (newRespChan 1).capacity = 1) ∧
    sendWouldBlock (newRespChan 1) = false :=
  ⟨⟨Nat.le_refl 1, (response_sink_buffered 1 (Nat.le_refl 1)).1⟩,
   (response_sink_buffered 1 (Nat.le_refl 1)).2⟩

/-- C5: for every dequeued write, the item-result sequence sent into the
response channel has length c.batchSize, the trace that gets offered (be it
delivered or dropped) carries BatchSize = c.batchSize, and the payload does
not depend on the dequeued write at all — in particular not on how many
update operations its request holds. -/
theorem dequeued_write_sizes (write : p4Write) (err : Option GrpcStatus)
    (batchSize duration : Nat) (tc : Option TraceChan) :
    ((processWriteResponse write err batchSize duration tc).1.2).length =
      batchSize ∧
    (∀ tr after,
        ((processWriteResponse write err batchSize duration tc).2 =
            TraceAction.delivered tr after ∨
         (processWriteResponse write err batchSize duration tc).2 =
            TraceAction.droppedWithNotice tr after) →
        tr.BatchSize = batchSize) ∧
    (∀ w2 : p4Write,
        (processWriteResponse w2 err batchSize duration tc).1.2 =
          (processWriteResponse write err batchSize duration tc).1.2) := by
  refine ⟨?_, ?_, ?_⟩
  · rw [processWriteResponse_fst]
    exact parse_length err batchSize
  · intro tr after h
    rw [processWriteResponse_trace write err batchSize duration tc tr after h]
    rfl
  · intro w2
    rw [processWriteResponse_fst, processWriteResponse_fst]

/-- C5 (witness): a request with one update, dispatched at configured batch
size 3, yields three item results and a trace with BatchSize 3. -/
theorem dequeued_write_sizes_witness :
    ((processWriteResponse
        { id := 7, req := { deviceId := 1, updates := [{ payload := 42 }] } }
        none 3 5 (some { capacity := 1, buffer := [] })).1.2).length = 3 ∧
    (writeTraceOf none 3 5).BatchSize = 3 := by
  have h := dequeued_write_sizes
    { id := 7, req := { deviceId := 1, updates := [{ payload := 42 }] } }
    none 3 5 (some { capacity := 1, buffer := [] })
  refine ⟨h.1, ?_⟩
  exact h.2.1 (writeTraceOf none 3 5)
    { capacity := 1, buffer := [writeTraceOf none 3 5] } (Or.inl rfl)

/-- C8: offering a write trace never blocks and never propagates an error:
with no registered channel (nil) telemetry is skipped entirely; with a
registered channel with free capacity the trace is delivered (appended to
the buffer); with a full buffer the trace is dropped with a diagnostic
notice; and in every case the response-channel send is the same, so the
telemetry outcome never disturbs the write path. -/
theorem trace_offer_best_effort (write : p4Write) (err : Option GrpcStatus)
    (batchSize duration : Nat) :
    (processWriteResponse write err batchSize duration none).2 =
      TraceAction.skipped ∧
    (∀ t : TraceChan, t.buffer.length < t.capacity →
        (processWriteResponse write err batchSize duration (some t)).2 =
          TraceAction.delivered (writeTraceOf err batchSize duration)
            { capacity := t.capacity,
              buffer := t.buffer ++ [writeTraceOf err batchSize duration] }) ∧
    (∀ t : TraceChan, ¬ t.buffer.length < t.capacity →
        (processWriteResponse write err batchSize duration (some t)).2 =
          TraceAction.droppedWithNotice (writeTraceOf err batchSize duration)
            t) ∧
    (∀ tcA tcB : Option TraceChan,
        (processWriteResponse write err batchSize duration tcA).1 =
          (processWriteResponse write err batchSize duration tcB).1) := by
  refine ⟨rfl, ?_, ?_, ?_⟩
  · intro t ht
    simp [processWriteResponse, ht]
  · intro t ht
    simp [processWriteResponse, ht]
  · intro tcA tcB
    rw [processWriteResponse_fst, processWriteResponse_fst]

/-- C8 (witness): concrete skipped, delivered and dropped outcomes; the
full channel (capacity 0) drops the trace without blocking. -/
theorem trace_offer_best_effort_witness :
    (processWriteResponse { id := 3, req := emptyWriteRequest } none 2 7
        none).2 = TraceAction.skipped ∧
    (([] : List WriteTrace).length < 1 ∧
      (processWriteResponse { id := 3, req := emptyWriteRequest } none 2 7
          (some { capacity := 1, buffer := [] })).2 =
        TraceAction.delivered (writeTraceOf none 2 7)
          { capacity := 1, buffer := [writeTraceOf none 2 7] }) ∧
    (¬ ([] : List WriteTrace).length < 0 ∧
      (processWriteResponse { id := 3, req := emptyWriteRequest } none 2 7
          (some { capacity := 0, buffer := [] })).2 =
        TraceAction.droppedWithNotice (writeTraceOf none 2 7)
          { capacity := 0, buffer := [] }) := by
  have h := trace_offer_best_effort { id := 3, req := emptyWriteRequest }
    none 2 7
  exact ⟨h.1,
    ⟨by decide, h.2.1 { capacity := 1, buffer := [] } (by decide)⟩,
    ⟨by decide, h.2.2.1 { capacity := 0, buffer := [] } (by decide)⟩⟩

/-- Dispatcher phase of the single ListenForWrites goroutine: parked on the
channel receive, or blocked inside the synchronous c.client.Write call for
one pending write. -/
inductive Phase where
  | idle
  | inFlight (w : p4Write)
  deriving DecidableEq, Repr

/-- Observable events of the write path, in the order they happen:
a producer enqueues a p4Write on c.writes, the dispatcher starts the
synchronous transport call for a write, the transport call returns, and a
decoding goroutine performs the single send into a response channel. -/
inductive Event where
  | enqueue (w : p4Write)
  | callStart (w : p4Write)
  | callEnd (w : p4Write)
  | sinkWrite (id : Nat) (results : List P4Error)
  deriving DecidableEq, Repr

/-- Global state of the write path: the FIFO buffer of c.writes, the
dispatcher phase, the spawned-but-not-yet-run decoding goroutines (each
holding its write and the transport outcome), and the event log. -/
structure SysState where
  queue : List p4Write
  phase : Phase
  decodes : List (p4Write × Option GrpcStatus)
  log : List Event
  deriving DecidableEq, Repr

/-- The p4Writes enqueued so far, in submission order. -/
def enqueuedWrites (l : List Event) : List p4Write :=
  l.filterMap fun e =>
    match e with
    | Event.enqueue w => some w
    | _ => none

/-- The p4Writes whose transport call has started, in invocation order. -/
def calledWrites (l : List Event) : List p4Write :=
  l.filterMap fun e =>
    match e with
    | Event.callStart w => some w
    | _ => none

/-- The p4Writes whose transport call has returned, in completion order. -/
def endedWrites (l : List Event) : List p4Write :=
  l.filterMap fun e =>
    match e with
    | Event.callEnd w => some w
    | _ => none

/-- The response-channel ids written so far by decoding goroutines. -/
def sinkIds (l : List Event) : List Nat :=
  l.filterMap fun e =>
    match e with
    | Event.sinkWrite i _ => some i
    | _ => none

/-- Number of transport calls started in a log. -/
def startCount (l : List Event) : Nat := (calledWrites l).length

/-- Number of transport calls finished in a log. -/
def endCount (l : List Event) : Nat := (endedWrites l).length

/-- Number of sends a given response channel has received in a log. -/
def sinkWriteCount (l : List Event) (i : Nat) : Nat := (sinkIds l).count i

/-- Ids of the enqueued writes, in submission order. -/
def enqueuedIds (l : List Event) : List Nat :=
  (enqueuedWrites l).map p4Write.id

/-- Ids of the writes whose transport call has started. -/
def calledIds (l : List Event) : List Nat :=
  (calledWrites l).map p4Write.id

/-- Response-channel id held by the dispatcher phase, if any. -/
def phaseIds : Phase → List Nat
  | Phase.idle => []
  | Phase.inFlight w => [w.id]

/-- 1 when a transport call is in flight, else 0. -/
def phaseCount : Phase → Nat
  | Phase.idle => 0
  | Phase.inFlight _ => 1

/-- Response-channel ids of the spawned decoding goroutines not yet run. -/
def decodeIds (d : List (p4Write × Option GrpcStatus)) : List Nat :=
  d.map fun x => x.1.id

/-- Small-step semantics of the write path at configured batch size bs.
submit is the Write method: each call makes a fresh response channel
(id not used by any earlier submission) and enqueues on c.writes.
recv + callStart is one dispatcher iteration entering the synchronous
transport call; callEnd is the call returning and spawning the decoding
goroutine (go processWriteResponse) with the transport outcome; decodeRun
is one spawned goroutine (any of them: they race) decoding its outcome and
performing its single send into its write's response channel. -/
inductive Step (bs : Nat) : SysState → SysState → Prop where
  | submit (q : List p4Write) (ph : Phase)
      (d : List (p4Write × Option GrpcStatus)) (l : List Event)
      (w : p4Write) (hw : w.id ∉ enqueuedIds l) :
      Step bs ⟨q, ph, d, l⟩ ⟨q ++ [w], ph, d, l ++ [Event.enqueue w]⟩
  | recv (w : p4Write) (rest : List p4Write)
      (d : List (p4Write × Option GrpcStatus)) (l : List Event) :
      Step bs ⟨w :: rest, Phase.idle, d, l⟩
        ⟨rest, Phase.inFlight w, d, l ++ [Event.callStart w]⟩
  | finish (q : List p4Write) (w : p4Write) (err : Option GrpcStatus)
      (d : List (p4Write × Option GrpcStatus)) (l : List Event) :
      Step bs ⟨q, Phase.inFlight w, d, l⟩
        ⟨q, Phase.idle, d ++ [(w, err)], l ++ [Event.callEnd w]⟩
  | decodeRun (q : List p4Write) (ph : Phase)
      (pre post : List (p4Write × Option GrpcStatus))
      (w : p4Write) (err : Option GrpcStatus) (l : List Event) :
      Step bs ⟨q, ph, pre ++ (w, err) :: post, l⟩
        ⟨q, ph, pre ++ post,
          l ++ [Event.sinkWrite w.id (parseP4RuntimeWriteError err bs)]⟩

/-- The initial state: empty queue, parked dispatcher, no goroutines. -/
def initState : SysState := ⟨[], Phase.idle, [], []⟩

/-- States the write path can reach from startup. -/
def Reachable (bs : Nat) (s : SysState) : Prop :=
  Relation.ReflTransGen (Step bs) initState s

@[simp] theorem enqueuedWrites_append (l m : List Event) :
    enqueuedWrites (l ++ m) = enqueuedWrites l ++ enqueuedWrites m := by
  simp [enqueuedWrites]

@[simp] theorem calledWrites_append (l m : List Event) :
    calledWrites (l ++ m) = calledWrites l ++ calledWrites m := by
  simp [calledWrites]

@[simp] theorem endedWrites_append (l m : List Event) :
    endedWrites (l ++ m) = endedWrites l ++ endedWrites m := by
  simp [endedWrites]

@[simp] theorem sinkIds_append (l m : List Event) :
    sinkIds (l ++ m) = sinkIds l ++ sinkIds m := by
  simp [sinkIds]

@[simp] theorem enqueuedWrites_enqueue (w : p4Write) :
    enqueuedWrites [Event.enqueue w] = [w] := rfl

@[simp] theorem enqueuedWrites_callStart (w : p4Write) :
    enqueuedWrites [Event.callStart w] = [] := rfl

@[simp] theorem enqueuedWrites_callEnd (w : p4Write) :
    enqueuedWrites [Event.callEnd w] = [] := rfl

@[simp] theorem enqueuedWrites_sinkWrite (i : Nat) (r : List P4Error) :
    enqueuedWrites [Event.sinkWrite i r] = [] := rfl

@[simp] theorem calledWrites_enqueue (w : p4Write) :
    calledWrites [Event.enqueue w] = [] := rfl

@[simp] theorem calledWrites_callStart (w : p4Write) :
    calledWrites [Event.callStart w] = [w] := rfl

@[simp] theorem calledWrites_callEnd (w : p4Write) :
    calledWrites [Event.callEnd w] = [] := rfl

@[simp] theorem calledWrites_sinkWrite (i : Nat) (r : List P4Error) :
    calledWrites [Event.sinkWrite i r] = [] := rfl

@[simp] theorem endedWrites_enqueue (w : p4Write) :
    endedWrites [Event.enqueue w] = [] := rfl

@[simp] theorem endedWrites_callStart (w : p4Write) :
    endedWrites [Event.callStart w] = [] := rfl

@[simp] theorem endedWrites_callEnd (w : p4Write) :
    endedWrites [Event.callEnd w] = [w] := rfl

@[simp] theorem endedWrites_sinkWrite (i : Nat) (r : List P4Error) :
    endedWrites [Event.sinkWrite i r] = [] := rfl

@[simp] theorem sinkIds_enqueue (w : p4Write) :
    sinkIds [Event.enqueue w] = [] := rfl

@[simp] theorem sinkIds_callStart (w : p4Write) :
    sinkIds [Event.callStart w] = [] := rfl

@[simp] theorem sinkIds_callEnd (w : p4Write) :
    sinkIds [Event.callEnd w] = [] := rfl

@[simp] theorem sinkIds_sinkWrite (i : Nat) (r : List P4Error) :
    sinkIds [Event.sinkWrite i r] = [i] := rfl

@[simp] theorem phaseIds_idle : phaseIds Phase.idle = [] := rfl

@[simp] theorem phaseIds_inFlight (w : p4Write) :
    phaseIds (Phase.inFlight w) = [w.id] := rfl

@[simp] theorem phaseCount_idle : phaseCount Phase.idle = 0 := rfl

@[simp] theorem phaseCount_inFlight (w : p4Write) :
    phaseCount (Phase.inFlight w) = 1 := rfl

@[simp] theorem decodeIds_append (d e : List (p4Write × Option GrpcStatus)) :
    decodeIds (d ++ e) = decodeIds d ++ decodeIds e := by
  simp [decodeIds]

@[simp] theorem decodeIds_cons (x : p4Write × Option GrpcStatus)
    (d : List (p4Write × Option GrpcStatus)) :
    decodeIds (x :: d) = x.1.id :: decodeIds d := rfl

@[simp] theorem decodeIds_nil : decodeIds [] = [] := rfl

@[simp] theorem enqueuedIds_append (l m : List Event) :
    enqueuedIds (l ++ m) = enqueuedIds l ++ enqueuedIds m := by
  simp [enqueuedIds]

@[simp] theorem calledIds_append (l m : List Event) :
    calledIds (l ++ m) = calledIds l ++ calledIds m := by
  simp [calledIds]

@[simp] theorem startCount_append (l m : List Event) :
    startCount (l ++ m) = startCount l + startCount m := by
  simp [startCount]

@[simp] theorem endCount_append (l m : List Event) :
    endCount (l ++ m) = endCount l + endCount m := by
  simp [endCount]

@[simp] theorem enqueuedIds_enqueue (w : p4Write) :
    enqueuedIds [Event.enqueue w] = [w.id] := rfl

@[simp] theorem enqueuedIds_callStart (w : p4Write) :
    enqueuedIds [Event.callStart w] = [] := rfl

@[simp] theorem enqueuedIds_callEnd (w : p4Write) :
    enqueuedIds [Event.callEnd w] = [] := rfl

@[simp] theorem enqueuedIds_sinkWrite (i : Nat) (r : List P4Error) :
    enqueuedIds [Event.sinkWrite i r] = [] := rfl

@[simp] theorem calledIds_enqueue (w : p4Write) :
    calledIds [Event.enqueue w] = [] := rfl

@[simp] theorem calledIds_callStart (w : p4Write) :
    calledIds [Event.callStart w] = [w.id] := rfl

@[simp] theorem calledIds_callEnd (w : p4Write) :
    calledIds [Event.callEnd w] = [] := rfl

@[simp] theorem calledIds_sinkWrite (i : Nat) (r : List P4Error) :
    calledIds [Event.sinkWrite i r] = [] := rfl

@[simp] theorem startCount_enqueue (w : p4Write) :
    startCount [Event.enqueue w] = 0 := rfl

@[simp] theorem startCount_callStart (w : p4Write) :
    startCount [Event.callStart w] = 1 := rfl

@[simp] theorem startCount_callEnd (w : p4Write) :
    startCount [Event.callEnd w] = 0 := rfl

@[simp] theorem startCount_sinkWrite (i : Nat) (r : List P4Error) :
    startCount [Event.sinkWrite i r] = 0 := rfl

@[simp] theorem endCount_enqueue (w : p4Write) :
    endCount [Event.enqueue w] = 0 := rfl

@[simp] theorem endCount_callStart (w : p4Write) :
    endCount [Event.callStart w] = 0 := rfl

@[simp] theorem endCount_callEnd (w : p4Write) :
    endCount [Event.callEnd w] = 1 := rfl

@[simp] theorem endCount_sinkWrite (i : Nat) (r : List P4Error) :
    endCount [Event.sinkWrite i r] = 0 := rfl

/-- Splitting a prefix of a log extended by one event. -/
theorem prefix_snoc_split {α : Type} {p l : List α} {e : α}
    (h : p <+: l ++ [e]) : p <+: l ∨ p = l ++ [e] := by
  rcases Nat.lt_or_ge p.length (l ++ [e]).length with hlt | hge
  · left
    have hle : p.length ≤ l.length := by
      rw [List.length_append, List.length_singleton] at hlt
      omega
    exact List.prefix_of_prefix_length_le h ⟨[e], rfl⟩ hle
  · right
    exact h.eq_of_length (Nat.le_antisymm h.length_le hge)

/-- Invariant of the write path, maintained by every step:
fifo: the enqueue order is the transport invocation order followed by the
writes still queued; flight: started calls = finished calls + the one
possibly in flight; bounded: in every log prefix the transport calls are
properly bracketed (never two starts without an end between them);
conserved: every started write's channel id sits in exactly one place —
in flight, in a spawned decoding goroutine, or already sent to;
freshIds: distinct submissions use distinct response channels. -/
structure SysInv (s : SysState) : Prop where
  fifo : enqueuedWrites s.log = calledWrites s.log ++ s.queue
  flight : startCount s.log = endCount s.log + phaseCount s.phase
  bounded : ∀ p, p <+: s.log →
    endCount p ≤ startCount p ∧ startCount p ≤ endCount p + 1
  conserved : ∀ i : Nat, List.count i (calledIds s.log) =
    List.count i (phaseIds s.phase) + List.count i (decodeIds s.decodes) +
      List.count i (sinkIds s.log)
  freshIds : (enqueuedIds s.log).Nodup

/-- The initial state satisfies the invariant. -/
theorem inv_init : SysInv initState := by
  refine ⟨rfl, rfl, ?_, fun i => rfl, List.nodup_nil⟩
  intro p hp
  have hp2 : p <+: ([] : List Event) := hp
  have hp3 : p = [] := List.sublist_nil.mp hp2.sublist
  subst hp3
  exact ⟨Nat.le_refl 0, Nat.le_succ 0⟩

/-- Every step preserves the invariant. -/
theorem inv_step {bs : Nat} {s t : SysState} (hstep : Step bs s t)
    (hinv : SysInv s) : SysInv t := by
  cases hstep with
  | submit q ph d l w hw =>
      obtain ⟨hfifo, hflight, hbounded, hconserved, hfresh⟩ := hinv
      dsimp only at hfifo hflight hbounded hconserved hfresh
      refine ⟨?_, ?_, ?_, ?_, ?_⟩
      · dsimp only
        simp [hfifo]
      · dsimp only
        simp at hflight ⊢
        omega
      · dsimp only
        intro p hp
        rcases prefix_snoc_split hp with hp | hp
        · exact hbounded p hp
        · subst hp
          have hl := hbounded l ⟨[], List.append_nil l⟩
          simp
          omega
      · dsimp only
        intro i
        have hc := hconserved i
        simp at hc ⊢
        omega
      · dsimp only
        simp [List.nodup_append, hfresh, hw]
  | recv w rest d l =>
      obtain ⟨hfifo, hflight, hbounded, hconserved, hfresh⟩ := hinv
      dsimp only at hfifo hflight hbounded hconserved hfresh
      simp only [phaseCount_idle, Nat.add_zero] at hflight
      refine ⟨?_, ?_, ?_, ?_, ?_⟩
      · dsimp only
        simp [hfifo]
      · dsimp only
        simp
        omega
      · dsimp only
        intro p hp
        rcases prefix_snoc_split hp with hp | hp
        · exact hbounded p hp
        · subst hp
          simp
          omega
      · dsimp only
        intro i
        have hc := hconserved i
        simp at hc ⊢
        omega
      · dsimp only
        simpa using hfresh
  | finish q w err d l =>
      obtain ⟨hfifo, hflight, hbounded, hconserved, hfresh⟩ := hinv
      dsimp only at hfifo hflight hbounded hconserved hfresh
      simp only [phaseCount_inFlight] at hflight
      refine ⟨?_, ?_, ?_, ?_, ?_⟩
      · dsimp only
        simp [hfifo]
      · dsimp only
        simp
        omega
      · dsimp only
        intro p hp
        rcases prefix_snoc_split hp with hp | hp
        · exact hbounded p hp
        · subst hp
          simp
          omega
      · dsimp only
        intro i
        have hc := hconserved i
        simp at hc ⊢
        omega
      · dsimp only
        simpa using hfresh
  | decodeRun q ph pre post w err l =>
      obtain ⟨hfifo, hflight, hbounded, hconserved, hfresh⟩ := hinv
      dsimp only at hfifo hflight hbounded hconserved hfresh
      refine ⟨?_, ?_, ?_, ?_, ?_⟩
      · dsimp only
        simp [hfifo]
      · dsimp only
        simp
        omega
      · dsimp only
        intro p hp
        rcases prefix_snoc_split hp with hp | hp
        · exact hbounded p hp
        · subst hp
          have hl := hbounded l ⟨[], List.append_nil l⟩
          simp
          omega
      · dsimp only
        intro i
        have hc := hconserved i
        simp [List.count_cons, List.count_singleton] at hc ⊢
        omega
      · dsimp only
        simpa using hfresh

/-- Every reachable state satisfies the invariant. -/
theorem inv_of_reachable {bs : Nat} {s : SysState} (h : Reachable bs s) :
    SysInv s := by
  induction h with
  | refl => exact inv_init
  | tail _ hstep ih => exact inv_step hstep ih

/-- C6: in every reachable state, transport calls are serialized — every
prefix of the event log has at most one more callStart than callEnds (at
most one Write call in flight at any time, never two starts without an end
between them) — and the sequence of writes handed to the transport is
exactly the FIFO enqueue order (a prefix of it: the still-queued tail has
not been invoked yet), regardless of how decoding goroutines interleave. -/
theorem transport_serialized_fifo (bs : Nat) (s : SysState)
    (h : Reachable bs s) :
    (∀ p, p <+: s.log →
        endCount p ≤ startCount p ∧ startCount p ≤ endCount p + 1) ∧
    calledWrites s.log <+: enqueuedWrites s.log := by
  have hinv := inv_of_reachable h
  exact ⟨hinv.bounded, ⟨s.queue, hinv.fifo.symm⟩⟩

/-- A fully drained state: nothing queued, dispatcher parked, and no
decoding goroutine still pending. -/
def Drained (s : SysState) : Prop :=
  s.queue = [] ∧ s.phase = Phase.idle ∧ s.decodes = []

/-- C7: every pending write's response channel receives at most one send in
any reachable state, and in a drained state every submitted write's channel
has received exactly one send — no batch is dropped and no channel is ever
written twice. -/
theorem sink_written_exactly_once (bs : Nat) (s : SysState)
    (h : Reachable bs s) :
    (∀ i : Nat, sinkWriteCount s.log i ≤ 1) ∧
    (Drained s → ∀ w, w ∈ enqueuedWrites s.log →
        sinkWriteCount s.log w.id = 1) := by
  have hinv := inv_of_reachable h
  have hcount : ∀ i : Nat, List.count i (enqueuedIds s.log) ≤ 1 :=
    List.nodup_iff_count_le_one.mp hinv.freshIds
  have hids : enqueuedIds s.log =
      calledIds s.log ++ s.queue.map p4Write.id := by
    simp only [enqueuedIds, calledIds, hinv.fifo, List.map_append]
  have hsub : ∀ i : Nat, List.count i (calledIds s.log) ≤
      List.count i (enqueuedIds s.log) := by
    intro i
    rw [hids, List.count_append]
    exact Nat.le_add_right _ _
  refine ⟨?_, ?_⟩
  · intro i
    have hc := hinv.conserved i
    have h1 := hsub i
    have h2 := hcount i
    unfold sinkWriteCount
    omega
  · intro hdr w hw
    obtain ⟨hq, hp, hd⟩ := hdr
    have hc := hinv.conserved w.id
    rw [hp, hd] at hc
    simp only [phaseIds_idle, decodeIds_nil, List.count_nil,
      Nat.zero_add] at hc
    have hmem : w.id ∈ enqueuedIds s.log :=
      List.mem_map_of_mem p4Write.id hw
    have hpos : 0 < List.count w.id (enqueuedIds s.log) :=
      List.count_pos_iff.mpr hmem
    have hids2 : List.count w.id (enqueuedIds s.log) =
        List.count w.id (calledIds s.log) := by
      rw [hids, hq]
      simp
    have h2 := hcount w.id
    unfold sinkWriteCount
    omega

/-- Concrete first producer's write (response channel 0, empty batch). -/
def wOne : p4Write := { id := 0, req := { deviceId := 1, updates := [] } }

/-- Concrete second producer's write (response channel 1, one update). -/
def wTwo : p4Write :=
  { id := 1, req := { deviceId := 1, updates := [{ payload := 7 }] } }

/-- Concrete transport failure for the second write. -/
def gDown : GrpcStatus :=
  { code := codes.Unavailable, message := "down", details := [] }

/-- Log of a complete two-write run in which the decoding goroutines finish
out of order: the second batch's results reach their channel first. -/
def logFinal : List Event :=
  [Event.enqueue wOne, Event.enqueue wTwo, Event.callStart wOne,
   Event.callEnd wOne, Event.callStart wTwo, Event.callEnd wTwo,
   Event.sinkWrite 1 (parseP4RuntimeWriteError (some gDown) 2),
   Event.sinkWrite 0 (parseP4RuntimeWriteError none 2)]

/-- The drained state at the end of that run. -/
def sFinal : SysState := ⟨[], Phase.idle, [], logFinal⟩

/-- The two-write out-of-order-decode run is an actual execution. -/
theorem reach_sFinal : Reachable 2 sFinal := by
  have h0 : Reachable 2 initState := Relation.ReflTransGen.refl
  have h1 : Reachable 2 ⟨[wOne], Phase.idle, [], [Event.enqueue wOne]⟩ :=
    h0.tail (Step.submit [] Phase.idle [] [] wOne (by decide))
  have h2 : Reachable 2 ⟨[wOne, wTwo], Phase.idle, [],
      [Event.enqueue wOne, Event.enqueue wTwo]⟩ :=
    h1.tail (Step.submit [wOne] Phase.idle [] [Event.enqueue wOne] wTwo
      (by decide))
  have h3 : Reachable 2 ⟨[wTwo], Phase.inFlight wOne, [],
      [Event.enqueue wOne, Event.enqueue wTwo, Event.callStart wOne]⟩ :=
    h2.tail (Step.recv wOne [wTwo] []
      [Event.enqueue wOne, Event.enqueue wTwo])
  have h4 : Reachable 2 ⟨[wTwo], Phase.idle, [(wOne, none)],
      [Event.enqueue wOne, Event.enqueue wTwo, Event.callStart wOne,
       Event.callEnd wOne]⟩ :=
    h3.tail (Step.finish [wTwo] wOne none []
      [Event.enqueue wOne, Event.enqueue wTwo, Event.callStart wOne])
  have h5 : Reachable 2 ⟨[], Phase.inFlight wTwo, [(wOne, none)],
      [Event.enqueue wOne, Event.enqueue wTwo, Event.callStart wOne,
       Event.callEnd wOne, Event.callStart wTwo]⟩ :=
    h4.tail (Step.recv wTwo [] [(wOne, none)]
      [Event.enqueue wOne, Event.enqueue wTwo, Event.callStart wOne,
       Event.callEnd wOne])
  have h6 : Reachable 2 ⟨[], Phase.idle, [(wOne, none), (wTwo, some gDown)],
      [Event.enqueue wOne, Event.enqueue wTwo, Event.callStart wOne,
       Event.callEnd wOne, Event.callStart wTwo, Event.callEnd wTwo]⟩ :=
    h5.tail (Step.finish [] wTwo (some gDown) [(wOne, none)]
      [Event.enqueue wOne, Event.enqueue wTwo, Event.callStart wOne,
       Event.callEnd wOne, Event.callStart wTwo])
  have h7 : Reachable 2 ⟨[], Phase.idle, [(wOne, none)],
      [Event.enqueue wOne, Event.enqueue wTwo, Event.callStart wOne,
       Event.callEnd wOne, Event.callStart wTwo, Event.callEnd wTwo,
       Event.sinkWrite 1 (parseP4RuntimeWriteError (some gDown) 2)]⟩ :=
    h6.tail (Step.decodeRun [] Phase.idle [(wOne, none)] [] wTwo
      (some gDown)
      [Event.enqueue wOne, Event.enqueue wTwo, Event.callStart wOne,
       Event.callEnd wOne, Event.callStart wTwo, Event.callEnd wTwo])
  have h8 : Reachable 2 ⟨[], Phase.idle, [],
      [Event.enqueue wOne, Event.enqueue wTwo, Event.callStart wOne,
       Event.callEnd wOne, Event.callStart wTwo, Event.callEnd wTwo,
       Event.sinkWrite 1 (parseP4RuntimeWriteError (some gDown) 2),
       Event.sinkWrite 0 (parseP4RuntimeWriteError none 2)]⟩ :=
    h7.tail (Step.decodeRun [] Phase.idle [] [] wOne none
      [Event.enqueue wOne, Event.enqueue wTwo, Event.callStart wOne,
       Event.callEnd wOne, Event.callStart wTwo, Event.callEnd wTwo,
       Event.sinkWrite 1 (parseP4RuntimeWriteError (some gDown) 2)])
  exact h8

/-- C6 (witness): the concrete two-write run is reachable, every log prefix
is call-bracketed, and the transport invocation order is the enqueue
order. -/
theorem transport_serialized_fifo_witness :
    Reachable 2 sFinal ∧
    ((∀ p, p <+: sFinal.log →
        endCount p ≤ startCount p ∧ startCount p ≤ endCount p + 1) ∧
      calledWrites sFinal.log <+: enqueuedWrites sFinal.log) :=
  ⟨reach_sFinal, transport_serialized_fifo 2 sFinal reach_sFinal⟩

/-- C7 (witness): in the drained two-write run each response channel got
exactly one send, even though the decodes completed out of order. -/
theorem sink_written_exactly_once_witness :
    Reachable 2 sFinal ∧
    sinkWriteCount sFinal.log wOne.id = 1 ∧
    sinkWriteCount sFinal.log wTwo.id = 1 ∧
    (∀ i : Nat, sinkWriteCount sFinal.log i ≤ 1) :=
  ⟨reach_sFinal,
   (sink_written_exactly_once 2 sFinal reach_sFinal).2 ⟨rfl, rfl, rfl⟩
     wOne (by decide),
   (sink_written_exactly_once 2 sFinal reach_sFinal).2 ⟨rfl, rfl, rfl⟩
     wTwo (by decide),
   (sink_written_exactly_once 2 sFinal reach_sFinal).1⟩
